import Mathlib

/-!
# Verification of the Clipboard utility (amigazen/Clipboard)

Shallow embedding of `src/Source/clipboard.c` (version 1.2, the current
source) and, where a claim cites it, the earlier revision in
`src/unnamed/part_000` (version 1.0).

Bytes are modelled as `Nat` values (`< 256` where it matters), 32-bit
`ULONG` arithmetic as `Nat` with explicit `% 2^32` at the points where the
C code can overflow.  The clipboard.device transport and the
iffparse.library stream are external OS collaborators; the parts of their
behaviour that the program relies on are modelled from the specification
(§4.1-§4.3, §6) and are marked as such in their doc comments.
-/

namespace Clipboard

/-- `MAKE_ID(a,b,c,d)` from clipboard.c line 35:
`(ULONG)(a)<<24 | (ULONG)(b)<<16 | (ULONG)(c)<<8 | (ULONG)(d)`. -/
def MAKE_ID (a b c d : Nat) : Nat :=
  (a <<< 24) ||| (b <<< 16) ||| (c <<< 8) ||| d

/-- `ID_FTXT` (clipboard.c line 38): `MAKE_ID('F','T','X','T')`. -/
def ID_FTXT : Nat := MAKE_ID 70 84 88 84

/-- `ID_CHRS` (clipboard.c line 39): `MAKE_ID('C','H','R','S')`. -/
def ID_CHRS : Nat := MAKE_ID 67 72 82 83

/-- `ID_FORM` (clipboard.c line 40): `MAKE_ID('F','O','R','M')`. -/
def ID_FORM : Nat := MAKE_ID 70 79 82 77

/-- AmigaDOS `RETURN_OK` (dos/dos.h): process success status 0. -/
def RETURN_OK : Nat := 0

/-- AmigaDOS `RETURN_FAIL` (dos/dos.h): process failure status 20. -/
def RETURN_FAIL : Nat := 20

/-- Big-endian decoding of a byte list into a natural number; on a 4-byte
list this is exactly the `ULONG` a big-endian 68k CPU reads from those
bytes (the struct overlay at clipboard.c 769-773 and `cbuff[0]` at 1072). -/
def decode32 (bs : List Nat) : Nat :=
  bs.foldl (fun acc b => acc * 256 + b) 0

/-- Big-endian encoding of a 32-bit value as 4 bytes, as iffparse writes
chunk ids and sizes to the stream. -/
def u32be (n : Nat) : List Nat :=
  [n / 2 ^ 24 % 256, n / 2 ^ 16 % 256, n / 2 ^ 8 % 256, n % 256]

theorem u32be_length (n : Nat) : (u32be n).length = 4 := rfl

theorem decode32_u32be (n : Nat) (h : n < 2 ^ 32) : decode32 (u32be n) = n := by
  simp only [u32be, decode32, List.foldl]
  omega

/-- `FormIDToUnit` (clipboard.c 1001-1020, version 1.2): byte-wise XOR/shift
mix, a multiply by 209 (wrapping `ULONG` arithmetic) XORed with the high
bits, then `% 255 + 1`. -/
def FormIDToUnit (formID : Nat) : Nat :=
  let byte0 := (formID >>> 24) &&& 255
  let byte1 := (formID >>> 16) &&& 255
  let byte2 := (formID >>> 8) &&& 255
  let byte3 := formID &&& 255
  let hash1 := byte0 ^^^ (byte1 <<< 8) ^^^ (byte2 <<< 16) ^^^ (byte3 <<< 24)
  let hash2 := (hash1 * 209 % 2 ^ 32) ^^^ (hash1 >>> 16)
  hash2 % 255 + 1

end Clipboard

namespace ClipboardV1

/-- `FormIDToUnit` from the earlier revision (src/unnamed/part_000, lines
640-660, version 1.0): polynomial hash with multiplier 31 (wrapping
`ULONG` arithmetic), then `% 255 + 1`. -/
def FormIDToUnit (formID : Nat) : Nat :=
  let byte0 := (formID >>> 24) &&& 255
  let byte1 := (formID >>> 16) &&& 255
  let byte2 := (formID >>> 8) &&& 255
  let byte3 := formID &&& 255
  let hash1 := byte0
  let hash2 := (hash1 * 31 % 2 ^ 32) ^^^ byte1
  let hash3 := (hash2 * 31 % 2 ^ 32) ^^^ byte2
  let hash4 := (hash3 * 31 % 2 ^ 32) ^^^ byte3
  hash4 % 255 + 1

end ClipboardV1

namespace Clipboard

/-- C2: The unit router `FormIDToUnit` is a pure, deterministic, total
function: for every 32-bit form ID, calling it twice with the same input
returns the same result, and the result always lies in [1, 255] (never 0).
This holds for the current router (clipboard.c 1001-1020) and for the
earlier revision's router (part_000 640-660) alike. -/
theorem formIDToUnit_deterministic_range (formID : Nat) (_h : formID < 2 ^ 32) :
    (FormIDToUnit formID = FormIDToUnit formID ∧
      1 ≤ FormIDToUnit formID ∧ FormIDToUnit formID ≤ 255) ∧
    (ClipboardV1.FormIDToUnit formID = ClipboardV1.FormIDToUnit formID ∧
      1 ≤ ClipboardV1.FormIDToUnit formID ∧ ClipboardV1.FormIDToUnit formID ≤ 255) := by
  refine ⟨⟨rfl, ?_, ?_⟩, rfl, ?_, ?_⟩ <;>
    simp only [FormIDToUnit, ClipboardV1.FormIDToUnit] <;> omega

/-- Witness for C2: the router evaluated at the concrete tag `FTXT`. -/
theorem formIDToUnit_deterministic_range_witness :
    ID_FTXT < 2 ^ 32 ∧
      (1 ≤ FormIDToUnit ID_FTXT ∧ FormIDToUnit ID_FTXT ≤ 255) ∧
      (1 ≤ ClipboardV1.FormIDToUnit ID_FTXT ∧ ClipboardV1.FormIDToUnit ID_FTXT ≤ 255) :=
  ⟨by decide,
    (formIDToUnit_deterministic_range ID_FTXT (by decide)).1.2,
    (formIDToUnit_deterministic_range ID_FTXT (by decide)).2.2⟩

end Clipboard

namespace Clipboard

/-! ## Listing preview sanitisation (claim C7) -/

/-- The preview size cap (clipboard.c 1093-1096): `previewSize = cn_Size`
clamped to at most 40. -/
def previewSize (chunkSize : Nat) : Nat :=
  if chunkSize > 40 then 40 else chunkSize

/-- The per-byte sanitisation loop body (clipboard.c 1107-1115): a byte
below 32 or at/above 127 becomes a space if it is a newline (10), a
carriage return (13) or a tab (9), otherwise a period (46); printable
ASCII is left unchanged. -/
def sanitizeByte (c : Nat) : Nat :=
  if c < 32 ∨ 127 ≤ c then
    if c = 10 ∨ c = 13 ∨ c = 9 then 32 else 46
  else c

/-- The listing preview of a CHRS payload (clipboard.c 1092-1115): read at
most `previewSize` bytes of the chunk, then sanitise each byte in place. -/
def previewOf (payload : List Nat) : List Nat :=
  (payload.take (previewSize payload.length)).map sanitizeByte

/-- C7: the listing preview contains at most 40 characters; it is the
byte-wise sanitisation of the first 40 payload bytes, where newline,
carriage return and tab become a single space, every other byte outside
printable ASCII (below 32, or 127 and above) becomes a period, and
printable ASCII bytes (32 to 126) are unchanged. -/
theorem preview_sanitized (payload : List Nat) (c : Nat) :
    (previewOf payload).length ≤ 40 ∧
    previewOf payload = (payload.take 40).map sanitizeByte ∧
    (c = 10 ∨ c = 13 ∨ c = 9 → sanitizeByte c = 32) ∧
    (32 ≤ c ∧ c ≤ 126 → sanitizeByte c = c) ∧
    ((c < 32 ∨ 127 ≤ c) → ¬(c = 10 ∨ c = 13 ∨ c = 9) → sanitizeByte c = 46) := by
  refine ⟨?_, ?_, ?_, ?_, ?_⟩
  · simp only [previewOf, List.length_map, List.length_take, previewSize]
    split <;> omega
  · simp only [previewOf, previewSize]
    split
    · rfl
    · rw [List.take_of_length_le (by omega), List.take_of_length_le (by omega)]
  · rintro (rfl | rfl | rfl) <;> rfl
  · intro hc
    simp only [sanitizeByte]
    rw [if_neg (by omega)]
  · intro hout hnotws
    simp only [sanitizeByte]
    rw [if_pos hout, if_neg hnotws]

/-- Witness for C7: the four-byte payload `H i \n !` yields the preview
`H i ␣ !`. -/
theorem preview_sanitized_witness :
    previewOf [72, 105, 10, 33] = [72, 105, 32, 33] ∧ sanitizeByte 10 = 32 :=
  ⟨((preview_sanitized [72, 105, 10, 33] 10).2.1).trans (by decide),
    (preview_sanitized [72, 105, 10, 33] 10).2.2.1 (Or.inl rfl)⟩

/-! ## Listing report condition (claim C9) -/

/-- The `ListClipboards` per-unit reporting condition (clipboard.c
1062-1075): the initial `CMD_READ` of 12 bytes from the start of the
unit's content returns `io_Actual = min 12 length` (an in-range memory
read on the device never sets `io_Error`); the unit is reported
(`hasContent = TRUE`) iff `io_Actual == 12` and the first longword
`cbuff[0]` equals `ID_FORM`. -/
def listReports (content : List Nat) : Bool :=
  decide (min 12 content.length = 12) && decide (decode32 (content.take 4) = ID_FORM)

/-- C9: the listing reports a unit exactly when the initial 12-byte read
returns all 12 bytes and the first 4 bytes are `F O R M`; shorter content,
or content not beginning with FORM, is silently omitted. -/
theorem listReports_iff (content : List Nat) (hbytes : ∀ b ∈ content, b < 256) :
    listReports content = true ↔
      12 ≤ content.length ∧ content.take 4 = [70, 79, 82, 77] := by
  simp only [listReports, Bool.and_eq_true, decide_eq_true_eq]
  constructor
  · rintro ⟨hlen, hform⟩
    refine ⟨by omega, ?_⟩
    match content, hlen, hform, hbytes with
    | a :: b :: c :: d :: rest, _, hform, hbytes =>
      simp only [List.take, decode32, List.foldl] at hform ⊢
      have ha := hbytes a (by simp)
      have hb := hbytes b (by simp)
      have hc := hbytes c (by simp)
      have hd := hbytes d (by simp)
      have hid : ID_FORM = 1179603533 := by decide
      rw [hid] at hform
      have habcd : a = 70 ∧ b = 79 ∧ c = 82 ∧ d = 77 := by omega
      simp [habcd.1, habcd.2.1, habcd.2.2.1, habcd.2.2.2]
  · rintro ⟨hlen, htake⟩
    refine ⟨by omega, ?_⟩
    rw [htake]
    decide

/-- Witness for C9: a 12-byte `FORM` header with inner type `FTXT` is
reported; the byte-bound hypothesis is discharged on the concrete bytes. -/
theorem listReports_iff_witness :
    listReports [70, 79, 82, 77, 0, 0, 0, 30, 70, 84, 88, 84] = true :=
  (listReports_iff [70, 79, 82, 77, 0, 0, 0, 30, 70, 84, 88, 84]
    (by decide)).mpr ⟨by decide, by decide⟩

/-! ## Exit status when both COPY and PASTE are given (claim C10) -/

/-- The two clipboard operations `main` runs in a COPY+PASTE invocation. -/
inductive MainOp
  | copy
  | paste
deriving DecidableEq

/-- `main` (clipboard.c 147-166) specialized to an invocation where both a
COPY source and a PASTE destination are given: the sequence of operations
performed and the final process result.  The paste call (lines 158-160) is
not guarded by the copy's outcome; a failed copy only normalises `result`
to `RETURN_FAIL` (lines 150-156), and a non-OK paste result overwrites
`result` (lines 161-163). -/
def mainBoth (copyResult pasteResult : Nat) : List MainOp × Nat :=
  let result := copyResult
  let result := if result ≠ RETURN_OK then RETURN_FAIL else result
  let result := if pasteResult ≠ RETURN_OK then pasteResult else result
  ([MainOp.copy, MainOp.paste], result)

/-- C10: with both a copy source and a paste destination given, the copy
runs first and the paste is always attempted (even if the copy failed),
and the exit status is `RETURN_OK` iff both the copy and the paste
returned `RETURN_OK`. -/
theorem mainBoth_order_and_status (copyResult pasteResult : Nat) :
    (mainBoth copyResult pasteResult).1 = [MainOp.copy, MainOp.paste] ∧
    ((mainBoth copyResult pasteResult).2 = RETURN_OK ↔
      copyResult = RETURN_OK ∧ pasteResult = RETURN_OK) := by
  refine ⟨rfl, ?_⟩
  simp only [mainBoth, RETURN_OK, RETURN_FAIL]
  split
  · omega
  · split <;> omega

end Clipboard

namespace Clipboard

/-! ## Transport session events and drain discipline (claims C3, C5, C8)

A clipboard unit session is modelled as the sequence of clipboard.device
commands the program issues on the unit's `IOClipReq`, together with a
small state machine for the device's commit semantics. -/

/-- One clipboard.device operation issued through `DoIO`:
a `CMD_READ` with its requested length and the `io_Actual` it returned,
a `CMD_WRITE` carrying the bytes the device accepted, a `CMD_UPDATE`
(commit), or the final `CloseClipboard`. -/
inductive ClipEvent
  | read (req actual : Nat)
  | write (bs : List Nat)
  | update
  | close
deriving DecidableEq

/-- Modelled from the spec (§4.3): the device's visible state for one
unit — the committed content, and the bytes buffered by an uncommitted
write session (the generation-tagged pending data). -/
structure UnitState where
  content : List Nat
  pending : Option (List Nat)
deriving DecidableEq

/-- Modelled from the spec (§4.3): effect of one operation on the unit.
Reads never change state; writes accumulate into the pending buffer;
`CMD_UPDATE` atomically replaces the content with the pending bytes;
closing without commit discards the pending bytes and leaves the prior
content unchanged. -/
def applyEvent (s : UnitState) (e : ClipEvent) : UnitState :=
  match e with
  | ClipEvent.read _ _ => s
  | ClipEvent.write bs => { s with pending := some (s.pending.getD [] ++ bs) }
  | ClipEvent.update =>
    match s.pending with
    | some p => { content := p, pending := none }
    | none => s
  | ClipEvent.close => { s with pending := none }

/-- Run a whole event sequence against a unit state. -/
def runEvents (evs : List ClipEvent) (s : UnitState) : UnitState :=
  evs.foldl applyEvent s

/-- `CBReadDone` (clipboard.c 506-524): repeatedly issue `CMD_READ` of
254 bytes until `io_Actual` is zero, draining the remaining `n` bytes of
the session.  Each read returns `min 254 remaining`; an in-range read
never sets `io_Error`. -/
def CBReadDoneEvents : Nat → List ClipEvent
  | 0 => [ClipEvent.read 254 0]
  | n + 1 =>
    ClipEvent.read 254 (min 254 (n + 1)) :: CBReadDoneEvents (n + 1 - min 254 (n + 1))
decreasing_by omega

/-- A session trace is drained before release when a zero-length read
(the authoritative end-of-content signal) occurs before the close. -/
def drainedBeforeClose : List ClipEvent → Bool
  | [] => false
  | ClipEvent.read _ 0 :: _ => true
  | ClipEvent.close :: _ => false
  | _ :: rest => drainedBeforeClose rest

theorem drainedBeforeClose_cons_read_succ (r a : Nat) (rest : List ClipEvent) :
    drainedBeforeClose (ClipEvent.read r (a + 1) :: rest) = drainedBeforeClose rest := rfl

theorem CBReadDoneEvents_drains (pre suf : List ClipEvent)
    (hpre : ∀ e ∈ pre, ∃ r a, e = ClipEvent.read r a) :
    ∀ n, drainedBeforeClose (pre ++ (CBReadDoneEvents n ++ suf)) = true := by
  induction pre with
  | nil =>
    intro n
    simp only [List.nil_append]
    induction n using Nat.strong_induction_on with
    | _ n ih =>
      match n with
      | 0 => rw [CBReadDoneEvents]; rfl
      | m + 1 =>
        rw [CBReadDoneEvents]
        obtain ⟨j, hj⟩ : ∃ j, min 254 (m + 1) = j + 1 := ⟨min 254 (m + 1) - 1, by omega⟩
        rw [hj, List.cons_append, drainedBeforeClose_cons_read_succ]
        exact ih (m + 1 - (j + 1)) (by omega)
  | cons e pre ihp =>
    intro n
    obtain ⟨r, a, rfl⟩ := hpre e (by simp)
    have hrest := ihp (fun e he => hpre e (by simp [he])) n
    match a with
    | 0 => rfl
    | a + 1 =>
      rw [List.cons_append, drainedBeforeClose_cons_read_succ]
      exact hrest

theorem CBReadDoneEvents_no_update (n : Nat) :
    ClipEvent.update ∉ CBReadDoneEvents n := by
  induction n using Nat.strong_induction_on with
  | _ n ih =>
    match n with
    | 0 => simp [CBReadDoneEvents]
    | m + 1 =>
      rw [CBReadDoneEvents]
      simpa using ih (m + 1 - min 254 (m + 1)) (by omega)

theorem CBReadDoneEvents_no_write (n : Nat) (bs : List Nat) :
    ClipEvent.write bs ∉ CBReadDoneEvents n := by
  induction n using Nat.strong_induction_on with
  | _ n ih =>
    match n with
    | 0 => simp [CBReadDoneEvents]
    | m + 1 =>
      rw [CBReadDoneEvents]
      simpa using ih (m + 1 - min 254 (m + 1)) (by omega)

/-- Without a `CMD_UPDATE`, no event sequence changes the committed
content of a unit (reads and writes leave it alone; close only discards
pending bytes). -/
theorem runEvents_content_of_no_update (evs : List ClipEvent) :
    ClipEvent.update ∉ evs → ∀ s : UnitState, (runEvents evs s).content = s.content := by
  induction evs with
  | nil => intro _ s; rfl
  | cons e evs ih =>
    intro hno s
    have he : e ≠ ClipEvent.update := fun h => hno (h ▸ List.mem_cons_self e evs)
    have hevs : ClipEvent.update ∉ evs := fun h => hno (List.mem_cons_of_mem e h)
    have : (applyEvent s e).content = s.content := by
      cases e with
      | read r a => rfl
      | write bs => rfl
      | update => exact absurd rfl he
      | close => rfl
    calc (runEvents (e :: evs) s).content
        = (runEvents evs (applyEvent s e)).content := rfl
      _ = (applyEvent s e).content := ih hevs (applyEvent s e)
      _ = s.content := this

end Clipboard

namespace Clipboard

/-! ## Per-unit session traces of the read-side operations -/

/-- The clipboard.device operations `ListClipboards` issues on one unit's
session (clipboard.c 1047-1183): the initial 12-byte `CMD_READ` (1062-1067,
`io_Actual = min 12 length`); if all 12 bytes arrived and the content
starts with `FORM` (1070-1072), then — after the optional FTXT preview
sub-session (1078-1131), which opens the stream with `IFFF_READ` only and
is abstracted as the read events `preview` leaving the request cursor at
`previewPos` — `CBReadDone` is invoked (1134 for FORM content, 1137 for
non-FORM content); when fewer than 12 bytes arrive (the check at 1070
fails) the unit is closed (1180) with no drain. -/
def listUnitTrace (content : List Nat) (preview : List ClipEvent) (previewPos : Nat) :
    List ClipEvent :=
  let actual := min 12 content.length
  if actual = 12 then
    if decode32 (content.take 4) = ID_FORM then
      if decode32 ((content.drop 8).take 4) = ID_FTXT then
        ClipEvent.read 12 12 ::
          (preview ++ (CBReadDoneEvents (content.length - previewPos) ++ [ClipEvent.close]))
      else
        ClipEvent.read 12 12 ::
          (CBReadDoneEvents (content.length - 12) ++ [ClipEvent.close])
    else
      ClipEvent.read 12 12 ::
        (CBReadDoneEvents (content.length - 12) ++ [ClipEvent.close])
  else
    [ClipEvent.read 12 actual, ClipEvent.close]

/-- The clipboard.device operations `PasteFromClipboard` issues on the
unit's own request (clipboard.c 804-928 and 934-991): the 12-byte header
`CMD_READ` (806-812), then `CBReadDone` on *both* branches before anything
else happens (line 831 on the text branch, line 935 on the non-text
branch), then the later iffparse/datatypes session abstracted as the read
events `rest`, then the close. -/
def pasteClipTrace (content : List Nat) (rest : List ClipEvent) : List ClipEvent :=
  let actual := min 12 content.length
  ClipEvent.read 12 actual ::
    (CBReadDoneEvents (content.length - actual) ++ (rest ++ [ClipEvent.close]))

theorem drain_head_mid (a n : Nat) (mid suf : List ClipEvent)
    (hmid : ∀ e ∈ mid, ∃ r b, e = ClipEvent.read r b) :
    drainedBeforeClose (ClipEvent.read 12 a :: (mid ++ (CBReadDoneEvents n ++ suf))) = true := by
  have hpre : ∀ e ∈ ClipEvent.read 12 a :: mid, ∃ r b, e = ClipEvent.read r b := by
    intro e he
    rcases List.mem_cons.1 he with he | he
    · exact ⟨12, a, he⟩
    · exact hmid e he
  simpa using CBReadDoneEvents_drains (ClipEvent.read 12 a :: mid) suf hpre n

/-- Counterexample to C3 as stated: a unit holding 5 bytes of content
(`F O R M` and one more byte) goes through the listing scan's short-read
path, and its session trace contains no zero-length read before the close:
the unit is closed without any drain, although it has content. -/
theorem listUnitTrace_short_not_drained :
    drainedBeforeClose (listUnitTrace [70, 79, 82, 77, 0] [] 0) = false ∧
      [70, 79, 82, 77, 0] ≠ [] := by
  constructor
  · rfl
  · decide

/-- C3 as amended: every early-return path of the paste operation drains
the unit (a zero-length read precedes the close) whatever the content and
whatever the later parse does, and the listing scan drains whenever its
initial 12-byte read returns all 12 bytes — for FORM and non-FORM content
alike; but when a unit's content is shorter than 12 bytes and nonempty,
the listing scan closes the unit with no drain at all. -/
theorem readSide_drain_discipline (content : List Nat) (preview rest : List ClipEvent)
    (previewPos : Nat) (hpreview : ∀ e ∈ preview, ∃ r a, e = ClipEvent.read r a) :
    (12 ≤ content.length →
      drainedBeforeClose (listUnitTrace content preview previewPos) = true) ∧
    (0 < content.length → content.length < 12 →
      drainedBeforeClose (listUnitTrace content preview previewPos) = false) ∧
    drainedBeforeClose (pasteClipTrace content rest) = true := by
  refine ⟨?_, ?_, ?_⟩
  · intro hlen
    simp only [listUnitTrace]
    split
    · split
      · split
        · exact drain_head_mid 12 (content.length - previewPos) preview [ClipEvent.close]
            hpreview
        · simpa using drain_head_mid 12 (content.length - 12) [] [ClipEvent.close]
            (by intro e he; simp at he)
      · simpa using drain_head_mid 12 (content.length - 12) [] [ClipEvent.close]
          (by intro e he; simp at he)
    · omega
  · intro hpos hlen
    simp only [listUnitTrace]
    rw [if_neg (by omega)]
    have hmin : min 12 content.length = content.length := by omega
    rw [hmin]
    obtain ⟨j, hj⟩ : ∃ j, content.length = j + 1 := ⟨content.length - 1, by omega⟩
    rw [hj]
    rfl
  · simpa using drain_head_mid (min 12 content.length)
      (content.length - min 12 content.length) [] (rest ++ [ClipEvent.close])
      (by intro e he; simp at he)

/-- Witness for amended C3: a concrete 12-byte FORM FTXT header content;
the listing trace (with an empty preview session ending at cursor 12) and
the paste trace both drain before closing. -/
theorem readSide_drain_discipline_witness :
    drainedBeforeClose
        (listUnitTrace [70, 79, 82, 77, 0, 0, 0, 30, 70, 84, 88, 84] [] 12) = true ∧
      drainedBeforeClose
        (pasteClipTrace [70, 79, 82, 77, 0, 0, 0, 30, 70, 84, 88, 84] []) = true :=
  ⟨(readSide_drain_discipline [70, 79, 82, 77, 0, 0, 0, 30, 70, 84, 88, 84] [] [] 12
      (by intro e he; simp at he)).1 (by decide),
    (readSide_drain_discipline [70, 79, 82, 77, 0, 0, 0, 30, 70, 84, 88, 84] [] [] 12
      (by intro e he; simp at he)).2.2⟩

/-! ## The listing scan is read-only (claim C8) -/

/-- C8: the listing scan issues no `CMD_WRITE` and no `CMD_UPDATE` on any
unit — the preview sub-session is opened with `IFFF_READ` only, so it
contributes read events alone — and therefore running the per-unit trace
against the device's state machine leaves the unit's committed content
exactly as it was before the scan. -/
theorem listClipboards_read_only (content : List Nat) (preview : List ClipEvent)
    (previewPos : Nat) (hpreview : ∀ e ∈ preview, ∃ r a, e = ClipEvent.read r a) :
    ClipEvent.update ∉ listUnitTrace content preview previewPos ∧
    (∀ bs, ClipEvent.write bs ∉ listUnitTrace content preview previewPos) ∧
    (runEvents (listUnitTrace content preview previewPos)
        { content := content, pending := none }).content = content := by
  have hpvU : ClipEvent.update ∉ preview := by
    intro h
    obtain ⟨r, a, he⟩ := hpreview _ h
    exact ClipEvent.noConfusion he
  have hpvW : ∀ bs, ClipEvent.write bs ∉ preview := by
    intro bs h
    obtain ⟨r, a, he⟩ := hpreview _ h
    exact ClipEvent.noConfusion he
  have hupd : ClipEvent.update ∉ listUnitTrace content preview previewPos := by
    simp only [listUnitTrace]
    split
    · split
      · split
        · simp [hpvU, CBReadDoneEvents_no_update]
        · simp [CBReadDoneEvents_no_update]
      · simp [CBReadDoneEvents_no_update]
    · simp
  refine ⟨hupd, ?_, runEvents_content_of_no_update _ hupd _⟩
  intro bs
  simp only [listUnitTrace]
  split
  · split
    · split
      · simp [hpvW bs, CBReadDoneEvents_no_write]
      · simp [CBReadDoneEvents_no_write]
    · simp [CBReadDoneEvents_no_write]
  · simp

/-- Witness for C8: the scan of a concrete FORM FTXT unit (empty preview
session, cursor at 12) leaves the unit's content unchanged. -/
theorem listClipboards_read_only_witness :
    (runEvents (listUnitTrace [70, 79, 82, 77, 0, 0, 0, 30, 70, 84, 88, 84] [] 12)
        { content := [70, 79, 82, 77, 0, 0, 0, 30, 70, 84, 88, 84], pending := none }).content =
      [70, 79, 82, 77, 0, 0, 0, 30, 70, 84, 88, 84] :=
  (listClipboards_read_only [70, 79, 82, 77, 0, 0, 0, 30, 70, 84, 88, 84] [] 12
    (by intro e he; simp at he)).2.2

end Clipboard

namespace Clipboard

/-! ## Copy commit semantics (claim C5) -/

/-- `CopyToClipboard` transport interaction (clipboard.c 447-479): after
the temp IFF file has been read into `fileBuffer`, one `CMD_WRITE` of the
whole buffer is issued; `wErr` and `wActual` are the `io_Error` and
`io_Actual` the device returns, and the accepted bytes (a prefix when the
write was partial) are what the device buffers.  `CMD_UPDATE` is issued
iff `io_Error == 0 && io_Actual == fileSize` (line 461); otherwise the
handle is closed (line 499) without a commit. -/
def copyClipEvents (fileData : List Nat) (wErr wActual : Nat) : List ClipEvent :=
  ClipEvent.write (fileData.take wActual) ::
    (if wErr = 0 ∧ wActual = fileData.length then
      [ClipEvent.update, ClipEvent.close]
    else
      [ClipEvent.close])

/-- C5: the copy operation issues the commit (`CMD_UPDATE`) iff the whole
payload was accepted by the transport without error; and whenever it does
not commit, running the session against the device's state machine leaves
the unit's prior content intact for subsequent readers. -/
theorem copy_commit_atomicity (fileData prior : List Nat) (wErr wActual : Nat) :
    (ClipEvent.update ∈ copyClipEvents fileData wErr wActual ↔
      wErr = 0 ∧ wActual = fileData.length) ∧
    (¬(wErr = 0 ∧ wActual = fileData.length) →
      (runEvents (copyClipEvents fileData wErr wActual)
          { content := prior, pending := none }).content = prior) := by
  by_cases h : wErr = 0 ∧ wActual = fileData.length
  · exact ⟨by simp [copyClipEvents, h], fun hn => absurd h hn⟩
  · refine ⟨by simp [copyClipEvents, h], fun _ => ?_⟩
    simp only [copyClipEvents, if_neg h]
    rfl

/-- Witness for C5: a 3-byte payload of which the device accepted only 2
bytes; no commit happens and the prior content `[9]` survives. -/
theorem copy_commit_atomicity_witness :
    (runEvents (copyClipEvents [1, 2, 3] 0 2)
        { content := [9], pending := none }).content = [9] :=
  (copy_commit_atomicity [1, 2, 3] [9] 0 2).2 (by decide)

/-! ## FTXT chunk codec and text extraction (claim C1) -/

/-- A leaf chunk of an IFF stream: a 4-byte type id and its payload. -/
structure Leaf where
  id : Nat
  payload : List Nat
deriving DecidableEq

/-- Wire encoding of one leaf chunk, as iffparse's `PushChunk` /
`WriteChunkBytes` / `PopChunk` emit it (used by `CopyTextToClipboard`,
clipboard.c 570-624): 4-byte id, 4-byte big-endian size, the payload, and
one zero pad byte when the payload length is odd (the pad is not counted
in the declared size). -/
def encodeLeaf (l : Leaf) : List Nat :=
  u32be l.id ++ u32be l.payload.length ++ l.payload ++
    (if l.payload.length % 2 = 1 then [0] else [])

/-- Wire encoding of a sequence of sibling leaf chunks. -/
def encodeBody : List Leaf → List Nat
  | [] => []
  | l :: ls => encodeLeaf l ++ encodeBody ls

/-- Wire encoding of a `FORM` container wrapping the leaves: `FORM`,
big-endian inner size (form type plus body), form type, body. -/
def encodeForm (formType : Nat) (ls : List Leaf) : List Nat :=
  u32be ID_FORM ++ u32be (4 + (encodeBody ls).length) ++ u32be formType ++ encodeBody ls

/-- The scan loop of the text extraction (clipboard.c 884-921, identical
to `ExtractTextFromClipboard` 711-746) over the flat body of a container:
modelled from the spec's decode contract (§4.1, §4.2) for iffparse's
`ParseIFF(IFFPARSE_SCAN)` with a `StopChunk` on the wanted leaf id, it
reads each 8-byte leaf header, yields the payload of every `CHRS` leaf via
`ReadChunkBytes` (which stops at the declared size), and skips the payload
and the odd-size pad byte of every chunk before moving to the next
sibling.  A trailing fragment shorter than a header ends the scan. -/
def scanChunks (bytes : List Nat) : List Nat :=
  if bytes.length < 8 then
    []
  else
    let id := decode32 (bytes.take 4)
    let size := decode32 ((bytes.drop 4).take 4)
    let body := bytes.drop 8
    (if id = ID_CHRS then body.take size else []) ++
      scanChunks (body.drop (size + size % 2))
termination_by bytes.length
decreasing_by
  simp only [List.length_drop]
  omega

/-- The whole text-extraction pass of `PasteFromClipboard`'s text branch
(clipboard.c 884-921): the stream must carry a `FORM` header with form
type `FTXT` (this is what the `StopChunk(FTXT, CHRS)` match on
`cn_Type == ID_FTXT` enforces, lines 903-904); the bytes written to the
destination file are the concatenated payloads of the CHRS leaves. -/
def extractTextStream (bytes : List Nat) : List Nat :=
  if bytes.length < 12 then
    []
  else if decode32 (bytes.take 4) = ID_FORM ∧ decode32 ((bytes.drop 8).take 4) = ID_FTXT then
    scanChunks (bytes.drop 12)
  else
    []

/-- The concatenation, in stream order, of the payloads of the CHRS
leaves of a leaf sequence. -/
def chrsConcat : List Leaf → List Nat
  | [] => []
  | l :: ls => (if l.id = ID_CHRS then l.payload else []) ++ chrsConcat ls

end Clipboard

namespace Clipboard

theorem drop8_u32_u32 (a b : Nat) (ys : List Nat) :
    (u32be a ++ (u32be b ++ ys)).drop 8 = ys := by
  have h44 : ((u32be a ++ (u32be b ++ ys)).drop 4).drop 4
      = (u32be a ++ (u32be b ++ ys)).drop 8 := by
    rw [List.drop_drop]
  rw [← h44, List.drop_left' (u32be_length a), List.drop_left' (u32be_length b)]

theorem drop12_u32_u32_u32 (a b c : Nat) (ys : List Nat) :
    (u32be a ++ (u32be b ++ (u32be c ++ ys))).drop 12 = ys := by
  have h84 : ((u32be a ++ (u32be b ++ (u32be c ++ ys))).drop 8).drop 4
      = (u32be a ++ (u32be b ++ (u32be c ++ ys))).drop 12 := by
    rw [List.drop_drop]
  rw [← h84, drop8_u32_u32, List.drop_left' (u32be_length c)]

theorem scanChunks_nil : scanChunks [] = [] := by
  rw [scanChunks]
  rfl

/-- Scanning the wire form of one leaf followed by further sibling bytes
yields the leaf's payload (when its id is `CHRS`) followed by the scan of
the rest; the pad byte of an odd-sized payload is skipped, never yielded. -/
theorem scanChunks_encodeLeaf (l : Leaf) (rest : List Nat)
    (hid : l.id < 2 ^ 32) (hlen : l.payload.length < 2 ^ 32) :
    scanChunks (encodeLeaf l ++ rest) =
      (if l.id = ID_CHRS then l.payload else []) ++ scanChunks rest := by
  have hpad : (if l.payload.length % 2 = 1 then [0] else ([] : List Nat)).length
      = l.payload.length % 2 := by
    by_cases hp : l.payload.length % 2 = 1
    · simp [hp]
    · simp only [if_neg hp, List.length_nil]
      omega
  have hdecomp : encodeLeaf l ++ rest
      = u32be l.id ++ (u32be l.payload.length ++ (l.payload ++
          ((if l.payload.length % 2 = 1 then [0] else []) ++ rest))) := by
    simp [encodeLeaf, List.append_assoc]
  have hlen8 : ¬((encodeLeaf l ++ rest).length < 8) := by
    rw [hdecomp]
    simp only [List.length_append, u32be_length]
    omega
  have ht4 : (encodeLeaf l ++ rest).take 4 = u32be l.id := by
    rw [hdecomp]
    exact List.take_left' (u32be_length _)
  have hd4t4 : ((encodeLeaf l ++ rest).drop 4).take 4 = u32be l.payload.length := by
    rw [hdecomp, List.drop_left' (u32be_length _)]
    exact List.take_left' (u32be_length _)
  have hd8 : (encodeLeaf l ++ rest).drop 8
      = l.payload ++ ((if l.payload.length % 2 = 1 then [0] else []) ++ rest) := by
    rw [hdecomp, drop8_u32_u32]
  have hdid := decode32_u32be l.id hid
  have hdlen := decode32_u32be l.payload.length hlen
  have htake : (l.payload ++ ((if l.payload.length % 2 = 1 then [0] else []) ++ rest)).take
      l.payload.length = l.payload := List.take_left l.payload _
  have hdrop : (l.payload ++ ((if l.payload.length % 2 = 1 then [0] else []) ++ rest)).drop
      (l.payload.length + l.payload.length % 2) = rest := by
    rw [← List.append_assoc]
    refine List.drop_left' ?_
    simp only [List.length_append, hpad]
  rw [scanChunks, if_neg hlen8]
  simp only [ht4, hd4t4, hd8, hdid, hdlen, htake, hdrop]

/-- Scanning the wire form of a whole leaf sequence yields exactly the
concatenation of the CHRS payloads in stream order. -/
theorem scanChunks_encodeBody (ls : List Leaf)
    (h : ∀ l ∈ ls, l.id < 2 ^ 32 ∧ l.payload.length < 2 ^ 32) :
    scanChunks (encodeBody ls) = chrsConcat ls := by
  induction ls with
  | nil => exact scanChunks_nil
  | cons l ls ih =>
    have hl := h l (List.mem_cons_self l ls)
    rw [encodeBody, scanChunks_encodeLeaf l (encodeBody ls) hl.1 hl.2,
      ih (fun x hx => h x (List.mem_cons_of_mem l hx)), chrsConcat]

/-- C1: for a clipboard unit whose content is a `FORM FTXT` container
wrapping leaf chunks, the paste operation's text extraction yields exactly
the concatenation of the payloads of the CHRS leaves in stream order,
with every odd-size pad byte excluded. -/
theorem paste_concatenates_chrs (ls : List Leaf)
    (h : ∀ l ∈ ls, l.id < 2 ^ 32 ∧ l.payload.length < 2 ^ 32) :
    extractTextStream (encodeForm ID_FTXT ls) = chrsConcat ls := by
  have hform : encodeForm ID_FTXT ls
      = u32be ID_FORM ++ (u32be (4 + (encodeBody ls).length) ++
          (u32be ID_FTXT ++ encodeBody ls)) := by
    simp [encodeForm, List.append_assoc]
  have hlen12 : ¬((encodeForm ID_FTXT ls).length < 12) := by
    rw [hform]
    simp only [List.length_append, u32be_length]
    omega
  have ht4 : (encodeForm ID_FTXT ls).take 4 = u32be ID_FORM := by
    rw [hform]
    exact List.take_left' (u32be_length _)
  have hd8t4 : ((encodeForm ID_FTXT ls).drop 8).take 4 = u32be ID_FTXT := by
    rw [hform, drop8_u32_u32]
    exact List.take_left' (u32be_length _)
  have hd12 : (encodeForm ID_FTXT ls).drop 12 = encodeBody ls := by
    rw [hform, drop12_u32_u32_u32]
  rw [extractTextStream, if_neg hlen12, if_pos, hd12,
    scanChunks_encodeBody ls h]
  constructor
  · rw [ht4]
    exact decode32_u32be ID_FORM (by decide)
  · rw [hd8t4]
    exact decode32_u32be ID_FTXT (by decide)

/-- The two demo leaves of the specification's end-to-end test: CHRS
payloads `Hello, ` (7 bytes, odd, so padded on the wire) and `World!`
(6 bytes). -/
def demoLeaves : List Leaf :=
  [{ id := ID_CHRS, payload := [72, 101, 108, 108, 111, 44, 32] },
   { id := ID_CHRS, payload := [87, 111, 114, 108, 100, 33] }]

/-- Witness for C1: pasting the wire-encoded container wrapping
`Hello, ` and `World!` yields exactly the 13 bytes `Hello, World!`,
with no trailing pad byte. -/
theorem paste_concatenates_chrs_witness :
    extractTextStream (encodeForm ID_FTXT demoLeaves)
        = [72, 101, 108, 108, 111, 44, 32, 87, 111, 114, 108, 100, 33] ∧
      [72, 101, 108, 108, 111, 44, 32, 87, 111, 114, 108, 100, 33].length = 13 :=
  ⟨(paste_concatenates_chrs demoLeaves (by decide)).trans (by decide), by decide⟩

end Clipboard

namespace Clipboard

/-! ## Paste header classification (claims C4, C6) -/

/-- The 12 bytes of `PasteFromClipboard`'s header struct after the initial
`CMD_READ` (clipboard.c 806-812): the device copies
`io_Actual = min 12 length` bytes into the struct, and the remaining
struct bytes keep whatever was in that stack memory before the call,
modelled by `junk` (a 12-byte list). -/
def headerBytes (content junk : List Nat) : List Nat :=
  content.take (min 12 content.length) ++ junk.drop (min 12 content.length)

/-- The FTXT classification of `PasteFromClipboard` (clipboard.c 814-819):
`io_Actual >= 8 && iffHeader.form == ID_FORM && iffHeader.formtype == ID_FTXT`,
where `form` is bytes 0-3 and `formtype` is bytes 8-11 of the header
struct — consulted regardless of whether the device actually filled
them. -/
def pasteIsText (content junk : List Nat) : Bool :=
  decide (8 ≤ min 12 content.length) &&
    decide (decode32 ((headerBytes content junk).take 4) = ID_FORM) &&
    decide (decode32 (((headerBytes content junk).drop 8).take 4) = ID_FTXT)

/-- C4 (code bug): the paste header classification acts on a partial
header.  For a unit holding exactly 8 content bytes (`FORM` plus the size
longword, no form type), the outcome depends on the uninitialised stack
bytes at offsets 8-11, which the 8-byte read never filled: with stale
`FTXT` bytes there the unit is classified as text, with zeroed stale bytes
it is not — so classification consults header fields beyond the bytes
actually read, and no truncated-stream error is reported in either case. -/
theorem pasteIsText_reads_unread_bytes :
    pasteIsText [70, 79, 82, 77, 0, 0, 0, 4]
        [0, 0, 0, 0, 0, 0, 0, 0, 70, 84, 88, 84] = true ∧
      pasteIsText [70, 79, 82, 77, 0, 0, 0, 4]
        [0, 0, 0, 0, 0, 0, 0, 0, 0, 0, 0, 0] = false ∧
      ([70, 79, 82, 77, 0, 0, 0, 4] : List Nat).length = 8 := by
  refine ⟨?_, ?_, ?_⟩ <;> decide

/-- Outcome of one paste invocation: the returned status and whether a
destination file was created. -/
structure PasteOutcome where
  result : Nat
  fileCreated : Bool
deriving DecidableEq

/-- Modelled from the spec (§6): the non-text paste branch (clipboard.c
929-991) hands the clipboard stream to the external converter
(`OpenIFF` + `NewDTObject` with `DTST_CLIPBOARD`); on an empty stream
there is no interchange object to detect (`NotFound`), so the branch
fails before `SaveDTObjectA` is ever reached and no destination file is
created.  On a nonempty stream the converter's outcome is abstract:
`converterOk` tells whether the save succeeded and `converterTouched`
whether a failed save had already created the destination file. -/
def nonTextPasteOutcome (content : List Nat) (converterOk converterTouched : Bool) :
    PasteOutcome :=
  if content.isEmpty then
    { result := RETURN_FAIL, fileCreated := false }
  else if converterOk then
    { result := RETURN_OK, fileCreated := true }
  else
    { result := RETURN_FAIL, fileCreated := converterTouched }

/-- `PasteFromClipboard` (clipboard.c 763-994): the overwrite guard
(784-791, which only opens the file with `MODE_OLDFILE` and never creates
it), the 12-byte header read with the FTXT classification (806-819), then
either the text branch — which opens the destination with `MODE_NEWFILE`
(line 863), creating the file, and finishes with the parse's status
`textResult` — or the non-text datatypes branch. -/
def pasteOutcome (content junk : List Nat) (fileExists force : Bool)
    (converterOk converterTouched : Bool) (textResult : Nat) : PasteOutcome :=
  if fileExists && !force then
    { result := RETURN_FAIL, fileCreated := false }
  else if pasteIsText content junk then
    { result := textResult, fileCreated := true }
  else
    nonTextPasteOutcome content converterOk converterTouched

/-- C6: for an empty clipboard unit the paste operation fails with
`RETURN_FAIL` and never creates the destination file — whatever the stale
header memory, the overwrite flags and the converter would have done. -/
theorem paste_empty_fails (junk : List Nat) (fileExists force converterOk converterTouched : Bool)
    (textResult : Nat) :
    (pasteOutcome [] junk fileExists force converterOk converterTouched textResult).result
        = RETURN_FAIL ∧
      (pasteOutcome [] junk fileExists force converterOk converterTouched
          textResult).fileCreated = false := by
  have hnt : pasteIsText [] junk = false := by
    simp [pasteIsText]
  simp only [pasteOutcome, hnt]
  split
  · exact ⟨rfl, rfl⟩
  · simp [nonTextPasteOutcome]

end Clipboard
